import Mathlib

/-!
Shallow embedding of the `proxydial` guarded dialer (package `proxydial`,
`dialer.go` / `port.go`) together with the parts of Go's `net` package value
model that the dialer manipulates (`net.IP` byte slices, `net.IPNet` ranges,
and their classification predicates).  Machine integers are modelled as
`Nat`/`Int` with explicit wrapping where Go truncates; fallible operations
return `Option`/`Except`; the external collaborators (host:port splitting,
service-name lookup, DNS resolution and the socket layer) are oracle
parameters threaded through the functions that call them.
-/

namespace Proxydial

/-- Go's `net.IP`: a byte slice, either 4 bytes (IPv4) or 16 bytes (IPv6,
possibly an IPv4-mapped address). -/
abbrev IP := List Nat

/-- Go's `isZeros` from go/src/net/ip.go: every byte is zero. -/

def isZeros : IP → Bool
  | [] => true
  | b :: bs => (b = 0) && isZeros bs

/-- Go's `IP.To4` from go/src/net/ip.go: the 4-byte form of an IPv4 address,
`none` for a genuine IPv6 address. A 16-byte slice is IPv4-mapped when the
first ten bytes are zero and bytes 10 and 11 are `0xff`. -/
def IP.to4 (ip : IP) : Option IP :=
  if ip.length = 4 then some ip
  else if ip.length = 16 && isZeros (ip.take 10)
      && (ip.get? 10 = some 0xff) && (ip.get? 11 = some 0xff) then
    some (ip.drop 12)
  else none

/-- Go's `IP.Equal` from go/src/net/ip.go: byte equality up to the IPv4-in-IPv6
mapping. -/
def IP.equal (ip x : IP) : Bool :=
  if ip.length = x.length then ip = x
  else if ip.length = 4 && x.length = 16 then
    (x.take 12 = [0, 0, 0, 0, 0, 0, 0, 0, 0, 0, 0xff, 0xff]) && ip = x.drop 12
  else if ip.length = 16 && x.length = 4 then
    (ip.take 12 = [0, 0, 0, 0, 0, 0, 0, 0, 0, 0, 0xff, 0xff]) && x = ip.drop 12
  else false

/-- Go's `net.IPv4zero` (`0.0.0.0`) in its canonical 16-byte form, as produced by
`net.IPv4`. -/
def ipv4zero : IP := [0, 0, 0, 0, 0, 0, 0, 0, 0, 0, 0xff, 0xff, 0, 0, 0, 0]

/-- Go's `net.IPv6unspecified` (`::`). -/

def ipv6unspecified : IP := [0, 0, 0, 0, 0, 0, 0, 0, 0, 0, 0, 0, 0, 0, 0, 0]

/-- Go's `net.IPv6loopback` (`::1`). -/
def ipv6loopback : IP := [0, 0, 0, 0, 0, 0, 0, 0, 0, 0, 0, 0, 0, 0, 0, 1]

/-- Go's `IP.IsUnspecified` from go/src/net/ip.go. -/
def IP.isUnspecified (ip : IP) : Bool :=
  IP.equal ip ipv4zero || IP.equal ip ipv6unspecified

/-- Go's `IP.IsLoopback` from go/src/net/ip.go. -/
def IP.isLoopback (ip : IP) : Bool :=
  match ip.to4 with
  | some [a, _, _, _] => a = 127
  | _ => IP.equal ip ipv6loopback

/-- Go's `IP.IsPrivate` from go/src/net/ip.go (RFC 1918 for IPv4, RFC 4193 ULA
for IPv6). -/
def IP.isPrivate (ip : IP) : Bool :=
  match ip.to4 with
  | some [a, b, _, _] =>
      (a = 10) || ((a = 172) && (Nat.land b 0xf0 = 16)) || ((a = 192) && (b = 168))
  | _ =>
      match ip with
      | a :: _ => (ip.length = 16) && (Nat.land a 0xfe = 0xfc)
      | [] => false

/-- Go's `IP.IsMulticast` from go/src/net/ip.go. -/

def IP.isMulticast (ip : IP) : Bool :=
  match ip.to4 with
  | some [a, _, _, _] => Nat.land a 0xf0 = 0xe0
  | _ =>
      match ip with
      | a :: _ => (ip.length = 16) && (a = 0xff)
      | [] => false

/-- Go's `IP.IsInterfaceLocalMulticast` from go/src/net/ip.go. -/
def IP.isInterfaceLocalMulticast (ip : IP) : Bool :=
  match ip with
  | a :: b :: _ => (ip.length = 16) && (a = 0xff) && (Nat.land b 0x0f = 0x01)
  | _ => false

/-- Go's `IP.IsLinkLocalMulticast` from go/src/net/ip.go. -/
def IP.isLinkLocalMulticast (ip : IP) : Bool :=
  match ip.to4 with
  | some [a, b, c, _] => (a = 224) && (b = 0) && (c = 0)
  | _ =>
      match ip with
      | a :: b :: _ => (ip.length = 16) && (a = 0xff) && (Nat.land b 0x0f = 0x02)
      | _ => false

/-- Go's `IP.IsLinkLocalUnicast` from go/src/net/ip.go. -/
def IP.isLinkLocalUnicast (ip : IP) : Bool :=
  match ip.to4 with
  | some [a, b, _, _] => (a = 169) && (b = 254)
  | _ =>
      match ip with
      | a :: b :: _ => (ip.length = 16) && (a = 0xfe) && (Nat.land b 0xc0 = 0x80)
      | _ => false

/-- Go's `net.IPNet`: an IP network given by a network number and a mask. -/
structure IPNet where
  ip : IP
  mask : List Nat
deriving DecidableEq, Repr

/-- Go's `networkNumberAndMask` from go/src/net/ip.go: canonicalise the network
number to 4 bytes when it is an IPv4 address, and in that case take the low
4 bytes of a 16-byte mask. Returns `none` where Go returns `nil, nil`. -/
def networkNumberAndMask (n : IPNet) : Option (IP × List Nat) :=
  let ipPart : Option IP :=
    match n.ip.to4 with
    | some ip4 => some ip4
    | none => if n.ip.length = 16 then some n.ip else none
  match ipPart with
  | none => none
  | some ip =>
    if n.mask.length = 4 then
      if ip.length ≠ 4 then none else some (ip, n.mask)
    else if n.mask.length = 16 then
      if ip.length = 4 then some (ip, n.mask.drop 12) else some (ip, n.mask)
    else none

/-- The byte-wise masked comparison loop in `IPNet.Contains`:
`nn[i]&m[i] == ip[i]&m[i]` for every index. -/
def maskedEq : IP → IP → List Nat → Bool
  | [], [], _ => true
  | n :: ns, i :: is, m :: ms =>
      (Nat.land n m = Nat.land i m) && maskedEq ns is ms
  | _, _, _ => false

/-- Go's `IPNet.Contains` from go/src/net/ip.go. -/

def IPNet.contains (n : IPNet) (ip : IP) : Bool :=
  match networkNumberAndMask n with
  | none => false
  | some (nn, m) =>
    let ip' := match ip.to4 with
      | some x => x
      | none => ip
    (ip'.length = nn.length) && maskedEq nn ip' m

/-- A CIDR prefix mask of `bits` ones followed by zeros, over `len` bytes
(`net.CIDRMask`). -/
def cidrMask (bits len : Nat) : List Nat :=
  (List.range len).map (fun i =>
    if bits ≥ 8 * (i + 1) then 255
    else if bits ≤ 8 * i then 0
    else Nat.land (Nat.shiftLeft 255 (8 * (i + 1) - bits)) 255)

/-- Byte-wise `IP.Mask` from go/src/net/ip.go (for equal lengths). -/

def maskIP : IP → List Nat → IP
  | b :: bs, m :: ms => Nat.land b m :: maskIP bs ms
  | _, _ => []

/-- Go's `cidrRange` from dialer.go specialised to an IPv4 CIDR string
`a.b.c.d/bits`: `net.ParseCIDR` returns the masked network number (4 bytes)
together with the prefix mask. -/
def cidrRange4 (a b c d bits : Nat) : IPNet :=
  let m := cidrMask bits 4
  { ip := maskIP [a, b, c, d] m, mask := m }

/-- Go's `cidrRange` from dialer.go specialised to an IPv6 CIDR string whose
expanded 16-byte address is `bytes`: `net.ParseCIDR` returns the masked
network number together with the prefix mask. -/
def cidrRange6 (bytes : List Nat) (bits : Nat) : IPNet :=
  let m := cidrMask bits 16
  { ip := maskIP bytes m, mask := m }

/-- The `Dialer` struct from dialer.go.  `time.Duration` values are `Int`
nanoseconds; `time.Time` is `Int` nanoseconds since the zero time, so that
`IsZero` is exactly `= 0`.  `AllowedPorts` entries are `int16` values
(integers in two's-complement 16-bit range). `LocalAddr` plays no role in
the control flow and is not carried. -/
structure Dialer where
  AllowedNets : List String
  AllowedPorts : List Int
  BlockedRanges : List IPNet
  BlockPrivate : Bool := false
  BlockLinkLocal : Bool := false
  BlockMulticast : Bool := false
  BlockUnspecified : Bool := false
  Timeout : Int := 0
  Deadline : Int := 0
  KeepAlive : Int := 0

/-- The membership loop of `Dialer.allowedNet`. -/

def stringListHas : List String → String → Bool
  | [], _ => false
  | n :: ns, network => if n = network then true else stringListHas ns network

/-- Go's `Dialer.allowedNet` from dialer.go. -/
def Dialer.allowedNet (d : Dialer) (network : String) : Bool :=
  stringListHas d.AllowedNets network

/-- The membership loop of `Dialer.allowedPort`. -/
def intListHas : List Int → Int → Bool
  | [], _ => false
  | p :: ps, port => if p = port then true else intListHas ps port

/-- Go's `Dialer.allowedPort` from dialer.go. -/
def Dialer.allowedPort (d : Dialer) (port : Int) : Bool :=
  intListHas d.AllowedPorts port

/-- The loop over `d.BlockedRanges` in `Dialer.allowedIP`: true iff some
range contains `ip`. -/
def rangeBlocked : List IPNet → IP → Bool
  | [], _ => false
  | r :: rs, ip => if r.contains ip then true else rangeBlocked rs ip

/-- Go's `Dialer.allowedIP` from dialer.go. -/

def Dialer.allowedIP (d : Dialer) (ip : IP) : Bool :=
  if d.BlockPrivate && (IP.isPrivate ip || IP.isLoopback ip) then false
  else if d.BlockLinkLocal && (IP.isLinkLocalUnicast ip || IP.isLinkLocalMulticast ip) then false
  else if d.BlockMulticast && (IP.isMulticast ip || IP.isInterfaceLocalMulticast ip) then false
  else if d.BlockUnspecified && IP.isUnspecified ip then false
  else if rangeBlocked d.BlockedRanges ip then false
  else true

/-- Go's `DefaultDialer` from dialer.go. -/
def DefaultDialer : Dialer :=
  { AllowedNets := ["tcp"]
    AllowedPorts := [80, 443, 8080, 8443]
    BlockedRanges :=
      [ cidrRange4 0 0 0 0 8
        , cidrRange4 10 0 0 0 8
        , cidrRange4 100 64 0 0 10
        , cidrRange4 127 0 0 0 8
        , cidrRange4 169 254 0 0 16
        , cidrRange4 172 16 0 0 12
        , cidrRange4 192 0 0 0 24
        , cidrRange4 192 0 2 0 24
        , cidrRange4 192 88 99 0 24
        , cidrRange4 192 168 0 0 16
        , cidrRange4 198 18 0 0 15
        , cidrRange4 198 51 100 0 24
        , cidrRange4 203 0 113 0 24
        , cidrRange4 224 0 0 0 4
        , cidrRange4 240 0 0 0 4
        , cidrRange4 255 255 255 255 32
        -- ::/128
        , cidrRange6 [0, 0, 0, 0, 0, 0, 0, 0, 0, 0, 0, 0, 0, 0, 0, 0] 128
        -- ::1/128 (IPv6 loopback)
        , cidrRange6 [0, 0, 0, 0, 0, 0, 0, 0, 0, 0, 0, 0, 0, 0, 0, 1] 128
        -- 100::/64
        , cidrRange6 [0x01, 0, 0, 0, 0, 0, 0, 0, 0, 0, 0, 0, 0, 0, 0, 0] 64
        -- 64:ff9b::/96
        , cidrRange6 [0, 0x64, 0xff, 0x9b, 0, 0, 0, 0, 0, 0, 0, 0, 0, 0, 0, 0] 96
        -- 2001::/32
        , cidrRange6 [0x20, 0x01, 0, 0, 0, 0, 0, 0, 0, 0, 0, 0, 0, 0, 0, 0] 32
        -- 2001:10::/28
        , cidrRange6 [0x20, 0x01, 0, 0x10, 0, 0, 0, 0, 0, 0, 0, 0, 0, 0, 0, 0] 28
        -- 2001:20::/28
        , cidrRange6 [0x20, 0x01, 0, 0x20, 0, 0, 0, 0, 0, 0, 0, 0, 0, 0, 0, 0] 28
        -- 2001:db8::/32
        , cidrRange6 [0x20, 0x01, 0x0d, 0xb8, 0, 0, 0, 0, 0, 0, 0, 0, 0, 0, 0, 0] 32
        -- 2002::/16
        , cidrRange6 [0x20, 0x02, 0, 0, 0, 0, 0, 0, 0, 0, 0, 0, 0, 0, 0, 0] 16
        -- fc00::/7 (IPv6 unique local addr)
        , cidrRange6 [0xfc, 0, 0, 0, 0, 0, 0, 0, 0, 0, 0, 0, 0, 0, 0, 0] 7
        -- fe80::/10 (IPv6 link-local)
        , cidrRange6 [0xfe, 0x80, 0, 0, 0, 0, 0, 0, 0, 0, 0, 0, 0, 0, 0, 0] 10
        -- ff00::/8 (IPv6 multicast)
        , cidrRange6 [0xff, 0, 0, 0, 0, 0, 0, 0, 0, 0, 0, 0, 0, 0, 0, 0] 8 ]
    BlockMulticast := true
    BlockPrivate := true
    BlockLinkLocal := true
    BlockUnspecified := true }

/-- The Go conversion `int16(portnum)` performed at the `allowedPort` call
site in `Dialer.Dial`: two's-complement truncation to 16 bits. -/
def toInt16 (p : Int) : Int := (p + 32768) % 65536 - 32768

/-- The distinct error values a dial can produce, one constructor per
`fmt.Errorf`/propagation site in dialer.go and port.go, carrying the values
interpolated there.  Errors surfaced verbatim from collaborators
(`net.SplitHostPort`, `net.LookupPort`, `net.LookupIP`, the socket dial)
carry the collaborator's message. -/
inductive GoError where
  | invalidNet (network addr : String)       -- "dialer.Dial %s %s: invalid net"
  | splitHostPortErr (e : String)            -- error returned by net.SplitHostPort
  | addrErr (err addr : String)              -- &net.AddrError{Err:..., Addr:...} in parsePort
  | lookupPortErr (e : String)               -- error returned by net.LookupPort
  | blockedPort (addr : String)              -- "dialer.Dial %s: blocked port"
  | lookupIPErr (e : String)                 -- error returned by net.LookupIP
  | blockedRange (addr : String) (ip : IP)   -- "dialer.Dial %s: blocked range (%s)"
  | noAddresses (addr : String)              -- "dialer.Dial no IP addresses found: %s"
  | connectErr (e : String)                  -- first error recorded in dialSerial
deriving DecidableEq, Repr

/-- The outcome of a dial: an established connection, an error, or a Go
runtime panic. -/
inductive Outcome where
  | conn
  | fail (e : GoError)
  | panicked
deriving DecidableEq, Repr

/-- Observable interactions with the network recorded by a dial: a DNS
lookup for a host, or a socket connection attempt to one candidate. -/
inductive Event where
  | lookupIP (host : String)
  | attempt (network : String) (ip : IP) (port : String)
deriving DecidableEq, Repr

/-- The external collaborators of the dialer, as oracles:
`net.SplitHostPort`, `net.LookupPort`, `net.LookupIP`, and the outcome of a
socket connection attempt to one candidate address. -/
structure Env where
  split : String → Except String (String × String)
  lookupPort : String → String → Except String Int
  lookupIP : String → Except String (List IP)
  connect : String → IP → String → Except String Unit

/-- Go's `big` from port.go. -/

def big : Nat := 0xFFFFFF

/-- The scanning loop of `dtoi` from port.go, over the remaining characters,
carrying the current index and accumulator; returns `(n, i, ok)` where
`ok = false` records the early `n >= big` bailout. -/
def dtoiLoop : List Char → Nat → Nat → Nat × Nat × Bool
  | c :: cs, i, n =>
      if '0' ≤ c ∧ c ≤ '9' then
        let n' := n * 10 + (c.toNat - 48)
        if big ≤ n' then (0, i, false)
        else dtoiLoop cs (i + 1) n'
      else (n, i, true)
  | [], i, n => (n, i, true)

/-- Go's `dtoi` from port.go: decimal to integer starting at offset `i0`,
returning number, new offset and success (`false` when no digit was
consumed or the accumulator reached `big`). -/
def dtoi (s : String) (i0 : Nat) : Nat × Nat × Bool :=
  let r := dtoiLoop (s.data.drop i0) i0 0
  if r.2.1 = i0 then (0, i0, false) else r

/-- Go's `parsePort` from port.go: parse the port as a decimal numeral, falling
back to the transport-aware service-name lookup when the text is not a
fully consumed numeral, then bound the result to [0, 0xFFFF]. -/
def parsePort (env : Env) (network port : String) : Except GoError Int :=
  let r := dtoi port 0
  let viaLookup : Except GoError Int :=
    if r.2.2 = false ∨ r.2.1 ≠ port.data.length then
      match env.lookupPort network port with
      | .error e => .error (.lookupPortErr e)
      | .ok p => .ok p
    else .ok (r.1 : Int)
  match viaLookup with
  | .error e => .error e
  | .ok p =>
      if p < 0 ∨ 0xFFFF < p then .error (.addrErr "invalid port" port)
      else .ok p

/-- Go's `2 * time.Second` in nanoseconds. -/

def twoSeconds : Int := 2000000000

/-- The deadline held by the inner `net.Dialer` after the first conditional
block of `dialSerial`: when a timeout is set, the earlier of `now + Timeout`
and a configured absolute deadline. -/
def effDeadline (d : Dialer) (now : Int) : Int :=
  if 0 < d.Timeout then
    let newDeadline := now + d.Timeout
    if d.Deadline = 0 ∨ newDeadline < d.Deadline then newDeadline else d.Deadline
  else d.Deadline

/-- The per-attempt timeout held by the inner `net.Dialer` after the second
conditional block of `dialSerial` (evaluated there only when the effective
deadline is nonzero and the candidate list is non-empty): the remaining
time divided by the number of candidates (Go's truncated int64 division),
floored at two seconds, kept only if smaller than a configured timeout. -/
def perAttempt (d : Dialer) (now : Int) (n : Nat) : Int :=
  let totalTime := effDeadline d now - now
  let nt := Int.tdiv totalTime (n : Int)
  let nt2 := if nt < twoSeconds then twoSeconds else nt
  if d.Timeout = 0 ∨ nt2 < d.Timeout then nt2 else d.Timeout

/-- Modelled from the spec: the inner per-candidate connection attempt is
Go's `net.Dialer.Dial`, which is a collaborator outside this repository.
Per the spec (§5), "an absolute deadline in the past causes immediate
failure without any connection attempt": with a nonzero deadline at or
before the current instant the attempt fails with a timeout error and no
socket is opened; otherwise the outcome is given by the abstract network
oracle and a socket attempt is recorded.  The relative per-attempt timeout
only bounds in-flight attempts, which the instantaneous model does not
observe. -/
def netDial (env : Env) (timeout deadline now : Int) (network : String) (ip : IP)
    (port : String) : Except String Unit × List Event :=
  let _ := timeout
  if deadline ≠ 0 ∧ deadline - now ≤ 0 then (.error "i/o timeout", [])
  else (env.connect network ip port, [.attempt network ip port])

/-- The candidate loop of `dialSerial`: try each IP in order, return the
first established connection, record the first error, and fall through to
the next candidate on failure.  The error result is the final `firstErr`
(`none` when the loop never ran). -/
def serialLoop (env : Env) (timeout deadline now : Int) (network port : String) :
    List IP → Option String → Except (Option String) Unit × List Event
  | [], firstErr => (.error firstErr, [])
  | ip :: rest, firstErr =>
      match netDial env timeout deadline now network ip port with
      | (.error e, evs) =>
          let r := serialLoop env timeout deadline now network port rest
            (if firstErr = none then some e else firstErr)
          (r.1, evs ++ r.2)
      | (.ok _, evs) => (.ok (), evs)

/-- The tail of `dialSerial` after the loop: a connection, the recorded
first error, or — when `firstErr` is still nil — the distinguished
"no IP addresses found" error naming the original target. -/
def finishSerial (addr : String) :
    Except (Option String) Unit × List Event → Outcome × List Event
  | (.ok _, evs) => (.conn, evs)
  | (.error none, evs) => (.fail (.noAddresses addr), evs)
  | (.error (some e), evs) => (.fail (.connectErr e), evs)

/-- Go's `Dialer.dialSerial` from dialer.go.  When the effective deadline is
nonzero, Go evaluates `totalTime / time.Duration(len(ips))`; with an empty
candidate list this is an integer division by zero, a runtime panic. -/
def Dialer.dialSerial (d : Dialer) (env : Env) (now : Int) (network addr : String)
    (ips : List IP) (port : String) : Outcome × List Event :=
  let deadline := effDeadline d now
  if deadline ≠ 0 then
    if ips.length = 0 then (.panicked, [])
    else
      finishSerial addr
        (serialLoop env (perAttempt d now ips.length) deadline now network port ips none)
  else
    finishSerial addr (serialLoop env d.Timeout deadline now network port ips none)

/-- The validation loop over the resolved addresses in `Dialer.Dial`:
the first resolved IP rejected by `allowedIP`, if any. -/
def firstDisallowed (d : Dialer) : List IP → Option IP
  | [] => none
  | ip :: rest => if d.allowedIP ip then firstDisallowed d rest else some ip

/-- Decimal digit string of `n` in base `b2 + 2` (most significant first). -/

def digitsAux (b2 : Nat) (n : Nat) : List Char :=
  if _h : n < b2 + 2 then [Nat.digitChar n]
  else digitsAux b2 (n / (b2 + 2)) ++ [Nat.digitChar (n % (b2 + 2))]
termination_by n
decreasing_by
  exact Nat.div_lt_self (by omega) (by omega)

/-- Digit string of `n` in base `b` (for `2 ≤ b ≤ 16`), most significant
digit first, no leading zeros. -/
def digitsBase (b n : Nat) : List Char := digitsAux (b - 2) n

/-- Go's `strconv.Itoa`. -/

def itoa (i : Int) : String :=
  if i < 0 then ⟨'-' :: digitsBase 10 i.natAbs⟩ else ⟨digitsBase 10 i.natAbs⟩

/-- Go's `Dialer.Dial` from dialer.go: validate the transport, split the
address, parse and validate the port, resolve the host, validate every
resolved IP, then delegate to `dialSerial`. -/
def Dialer.Dial (d : Dialer) (env : Env) (now : Int) (network addr : String) :
    Outcome × List Event :=
  if d.allowedNet network = false then (.fail (.invalidNet network addr), [])
  else
    match env.split addr with
    | .error e => (.fail (.splitHostPortErr e), [])
    | .ok (host, port) =>
      match parsePort env network port with
      | .error e => (.fail e, [])
      | .ok portnum =>
        if d.allowedPort (toInt16 portnum) = false then (.fail (.blockedPort addr), [])
        else
          match env.lookupIP host with
          | .error e => (.fail (.lookupIPErr e), [.lookupIP host])
          | .ok ips =>
            match firstDisallowed d ips with
            | some ip => (.fail (.blockedRange addr ip), [.lookupIP host])
            | none =>
              let r := d.dialSerial env now network addr ips (itoa portnum)
              (r.1, .lookupIP host :: r.2)

/-- A policy whose port allow-list holds the single (negative) int16 entry
-25536, used to exercise the aliasing direction of the port-gate theorem. -/
def negPortDialer : Dialer :=
  { AllowedNets := [], AllowedPorts := [-25536], BlockedRanges := [] }

/-- A dialer with a ten-second timeout and no absolute deadline. -/

def budgetDialer : Dialer :=
  { AllowedNets := ["tcp"], AllowedPorts := [80], BlockedRanges := []
    Timeout := 10000000000 }

def plainDialer : Dialer :=
  { AllowedNets := ["tcp"], AllowedPorts := [80], BlockedRanges := [] }

/-- An environment whose socket oracle refuses every address. -/
def refusingEnv : Env :=
  { split := fun _ => .error "unused"
    lookupPort := fun _ _ => .error "unused"
    lookupIP := fun _ => .error "unused"
    connect := fun _ _ _ => .error "connection refused" }

/-- A dialer with a one-second timeout. -/
def oneSecondDialer : Dialer :=
  { AllowedNets := ["tcp"], AllowedPorts := [80], BlockedRanges := []
    Timeout := 1000000000 }

def resolver25Env : Env :=
  { split := fun _ => .ok ("h", "25")
    lookupPort := fun _ _ => .error "unknown service"
    lookupIP := fun _ => .ok [[93, 184, 216, 34]]
    connect := fun _ _ _ => .ok () }

/-- Value of a hexadecimal digit character, `none` for a non-digit. -/
def digitVal (c : Char) : Option Nat :=
  if '0' ≤ c ∧ c ≤ '9' then some (c.toNat - 48)
  else if 'a' ≤ c ∧ c ≤ 'f' then some (c.toNat - 87)
  else if 'A' ≤ c ∧ c ≤ 'F' then some (c.toNat - 55)
  else none

/-- Accumulating digit-string parser in base `b`. -/
def parseDigitsAux (b : Nat) : List Char → Nat → Option Nat
  | [], acc => some acc
  | c :: cs, acc =>
      match digitVal c with
      | some v => if v < b then parseDigitsAux b cs (acc * b + v) else none
      | none => none

/-- Parse a non-empty digit string in base `b`. -/
def parseDigits (b : Nat) (l : List Char) : Option Nat :=
  if l = [] then none else parseDigitsAux b l 0

/-- Modelled from the spec: one numeric segment of an IPv4 literal as the
resolution collaborator accepts it (§6: "dotted-decimal, pure decimal
(32-bit), hexadecimal, and octal/zero-padded segment forms"), i.e. classic
`inet_aton` segment syntax — a `0x`/`0X` prefix selects hexadecimal, a
leading `0` selects octal, otherwise decimal. -/
def parseSegment : List Char → Option Nat
  | [] => none
  | c :: t =>
      if c = '0' then
        match t with
        | c2 :: t2 =>
            if c2 = 'x' ∨ c2 = 'X' then parseDigits 16 t2
            else parseDigits 8 ('0' :: c2 :: t2)
        | [] => some 0
      else parseDigits 10 (c :: t)

/-- Split a character list at every '.' (the separator of IPv4 literal
segments). -/
def splitDots : List Char → List (List Char)
  | [] => [[]]
  | c :: cs =>
      if c = '.' then [] :: splitDots cs
      else
        match splitDots cs with
        | p :: ps => (c :: p) :: ps
        | [] => [[c]]

/-- Parse every segment, failing if any fails. -/

def parseParts : List (List Char) → Option (List Nat)
  | [] => some []
  | p :: ps =>
      match parseSegment p, parseParts ps with
      | some v, some vs => some (v :: vs)
      | _, _ => none

/-- Modelled from the spec: the resolution collaborator normalises an IPv4
literal host — written in any of the accepted encodings — to one 4-byte
address before the dialer's range checks run (classic `inet_aton`
semantics: 1 segment carries 32 bits, 2 segments carry 8+24, 3 segments
8+8+16, 4 segments one byte each, big-endian). -/
def inetAton (s : String) : Option (List Nat) :=
  match parseParts (splitDots s.data) with
  | some [v] =>
      if v < 4294967296 then
        some [v / 16777216 % 256, v / 65536 % 256, v / 256 % 256, v % 256]
      else none
  | some [v0, v1] =>
      if v0 < 256 ∧ v1 < 16777216 then
        some [v0, v1 / 65536 % 256, v1 / 256 % 256, v1 % 256]
      else none
  | some [v0, v1, v2] =>
      if v0 < 256 ∧ v1 < 256 ∧ v2 < 65536 then
        some [v0, v1, v2 / 256 % 256, v2 % 256]
      else none
  | some [v0, v1, v2, v3] =>
      if v0 < 256 ∧ v1 < 256 ∧ v2 < 256 ∧ v3 < 256 then some [v0, v1, v2, v3]
      else none
  | _ => none

/-- Modelled from the spec: `net.SplitHostPort` (a collaborator outside
this repository) splits a "host:port" string at its last colon; bracketed
IPv6 hosts are not needed for the IPv4-literal properties below. -/
def splitOnLastColon : List Char → Option (List Char × List Char)
  | [] => none
  | c :: rest =>
      match splitOnLastColon rest with
      | some (h, p) => some (c :: h, p)
      | none => if c = ':' then some ([], rest) else none

/-- The environment whose resolver normalises IPv4 literals via `inetAton`
and whose splitter is `splitOnLastColon`. -/
def literalEnv : Env :=
  { split := fun addr =>
      match splitOnLastColon addr.data with
      | some (h, p) => .ok (⟨h⟩, ⟨p⟩)
      | none => .error "missing port in address"
    lookupPort := fun _ _ => .error "unknown service"
    lookupIP := fun host =>
      match inetAton host with
      | some bs => .ok [bs]
      | none => .error "no such host"
    connect := fun _ _ _ => .ok () }

/-- The dotted-decimal encoding `a.b.c.d`. -/

def dottedEnc (a b c d : Nat) : List Char :=
  digitsBase 10 a ++
    ('.' :: (digitsBase 10 b ++ ('.' :: (digitsBase 10 c ++ ('.' :: digitsBase 10 d)))))

/-- The 32-bit value of the IPv4 address `a.b.c.d`. -/
def ipNum (a b c d : Nat) : Nat := ((a * 256 + b) * 256 + c) * 256 + d

/-- The pure 32-bit decimal encoding. -/
def decEnc (n : Nat) : List Char := digitsBase 10 n

/-- The hexadecimal encoding `0x…`. -/
def hexEnc (n : Nat) : List Char := '0' :: 'x' :: digitsBase 16 n

/-- The zero-padded octal segment encoding `0…​.0….0….0…`. -/
def octEnc (a b c d : Nat) : List Char :=
  ('0' :: digitsBase 8 a) ++
    ('.' :: (('0' :: digitsBase 8 b) ++
      ('.' :: (('0' :: digitsBase 8 c) ++ ('.' :: ('0' :: digitsBase 8 d))))))

/-- An environment whose socket oracle refuses 1.1.1.1 and accepts any
other address. -/
def flakyEnv : Env :=
  { split := fun _ => .error "unused"
    lookupPort := fun _ _ => .error "unused"
    lookupIP := fun _ => .error "unused"
    connect := fun _ ip _ =>
      if ip = [1, 1, 1, 1] then .error "connection refused" else .ok () }

/-- A dialer whose absolute deadline (5 ns past the zero time) is already
in the past at instant 10. -/
def pastDeadlineDialer : Dialer :=
  { AllowedNets := ["tcp"], AllowedPorts := [80], BlockedRanges := []
    Deadline := 5 }

/-- An environment resolving the host to one allowed and one loopback
address, with a split oracle for "h:80". -/
def mixedEnv : Env :=
  { split := fun _ => .ok ("h", "80")
    lookupPort := fun _ _ => .error "unknown service"
    lookupIP := fun _ => .ok [[93, 184, 216, 34], [127, 0, 0, 1]]
    connect := fun _ _ _ => .ok () }

theorem serialLoop_allFail_someErr (env : Env) (timeout deadline now : Int)
    (network port : String)
    (hdl : ¬(deadline ≠ 0 ∧ deadline - now ≤ 0)) :
    ∀ (ips : List IP) (e0 : String),
      (∀ ip ∈ ips, ∃ e, env.connect network ip port = .error e) →
      serialLoop env timeout deadline now network port ips (some e0) =
        (.error (some e0), ips.map (fun ip => Event.attempt network ip port)) := by
  intro ips
  induction ips with
  | nil => intro e0 _; rfl
  | cons ip rest ih =>
    intro e0 hfail
    obtain ⟨e, he⟩ := hfail ip (List.mem_cons_self ip rest)
    have hrec := ih e0 (fun p hp => hfail p (List.mem_cons_of_mem ip hp))
    simp only [serialLoop, netDial, if_neg hdl, he, List.map_cons,
      if_neg (Option.some_ne_none e0), hrec, List.singleton_append]

theorem serialLoop_firstSuccess (env : Env) (timeout deadline now : Int)
    (network port : String)
    (hdl : ¬(deadline ≠ 0 ∧ deadline - now ≤ 0)) :
    ∀ (pre : List IP) (ip : IP) (rest : List IP) (firstErr : Option String),
      (∀ p ∈ pre, ∃ e, env.connect network p port = .error e) →
      env.connect network ip port = .ok () →
      serialLoop env timeout deadline now network port (pre ++ ip :: rest) firstErr =
        (.ok (), (pre ++ [ip]).map (fun p => Event.attempt network p port)) := by
  intro pre
  induction pre with
  | nil =>
    intro ip rest firstErr _ hok
    simp only [List.nil_append, serialLoop, netDial, if_neg hdl, hok, List.map_cons,
      List.map_nil]
  | cons p ps ih =>
    intro ip rest firstErr hfail hok
    obtain ⟨e, he⟩ := hfail p (List.mem_cons_self p ps)
    have hrec := ih ip rest (if firstErr = none then some e else firstErr)
      (fun q hq => hfail q (List.mem_cons_of_mem p hq)) hok
    simp only [List.cons_append, serialLoop, netDial, if_neg hdl, he,
      List.append_eq, hrec, List.map_cons, List.nil_append, List.singleton_append]

theorem serialLoop_pastDeadline (env : Env) (timeout deadline now : Int)
    (network port : String)
    (hdl : deadline ≠ 0 ∧ deadline - now ≤ 0) :
    ∀ (ips : List IP) (e0 : String),
      serialLoop env timeout deadline now network port ips (some e0) =
        (.error (some e0), []) := by
  intro ips
  induction ips with
  | nil => intro e0; rfl
  | cons ip rest ih =>
    intro e0
    have hrec := ih e0
    simp only [serialLoop, netDial, if_pos hdl, if_neg (Option.some_ne_none e0),
      hrec, List.nil_append]

theorem intListHas_iff (l : List Int) (p : Int) : intListHas l p = true ↔ p ∈ l := by
  induction l with
  | nil => simp [intListHas]
  | cons a as ih =>
    simp only [intListHas]
    by_cases h : a = p
    · simp [h]
    · simp [h, ih, Ne.symm h]

theorem rangeBlocked_iff (l : List IPNet) (ip : IP) :
    rangeBlocked l ip = true ↔ ∃ r ∈ l, r.contains ip = true := by
  induction l with
  | nil => simp [rangeBlocked]
  | cons r rs ih =>
    simp only [rangeBlocked]
    by_cases h : r.contains ip = true
    · simp [h]
    · simp [h, ih]

/-- C3: for every IP and policy, `allowedIP` returns false iff `blockPrivate`
is set and the IP is private-use or loopback, or `blockLinkLocal` is set and
the IP is link-local unicast or link-local multicast, or `blockMulticast` is
set and the IP is multicast or interface-local multicast, or
`blockUnspecified` is set and the IP is the unspecified address, or the IP is
contained in some entry of the blocked-range list; otherwise it returns
true. -/
theorem allowedIP_false_iff (d : Dialer) (ip : IP) :
    d.allowedIP ip = false ↔
      (d.BlockPrivate = true ∧ (IP.isPrivate ip = true ∨ IP.isLoopback ip = true)) ∨
      (d.BlockLinkLocal = true ∧
        (IP.isLinkLocalUnicast ip = true ∨ IP.isLinkLocalMulticast ip = true)) ∨
      (d.BlockMulticast = true ∧
        (IP.isMulticast ip = true ∨ IP.isInterfaceLocalMulticast ip = true)) ∨
      (d.BlockUnspecified = true ∧ IP.isUnspecified ip = true) ∨
      (∃ r ∈ d.BlockedRanges, r.contains ip = true) := by
  simp only [Dialer.allowedIP, ← rangeBlocked_iff]
  split_ifs with h1 h2 h3 h4 h5 <;>
    simp_all [Bool.and_eq_true, Bool.or_eq_true]

/-- C4: the built-in default policy consists of exactly the allowed
transports {tcp}, the allowed ports {80, 443, 8080, 8443}, the sixteen
listed IPv4 blocked CIDR ranges (including 169.254.0.0/16), the twelve
listed IPv6 blocked CIDR ranges, and all four classification flags
enabled. -/
theorem defaultDialer_policy :
    DefaultDialer.AllowedNets = ["tcp"] ∧
    DefaultDialer.AllowedPorts = [80, 443, 8080, 8443] ∧
    DefaultDialer.BlockedRanges =
      [ ⟨[0, 0, 0, 0], [255, 0, 0, 0]⟩                     -- 0.0.0.0/8
        , ⟨[10, 0, 0, 0], [255, 0, 0, 0]⟩                  -- 10.0.0.0/8
        , ⟨[100, 64, 0, 0], [255, 192, 0, 0]⟩              -- 100.64.0.0/10
        , ⟨[127, 0, 0, 0], [255, 0, 0, 0]⟩                 -- 127.0.0.0/8
        , ⟨[169, 254, 0, 0], [255, 255, 0, 0]⟩             -- 169.254.0.0/16
        , ⟨[172, 16, 0, 0], [255, 240, 0, 0]⟩              -- 172.16.0.0/12
        , ⟨[192, 0, 0, 0], [255, 255, 255, 0]⟩             -- 192.0.0.0/24
        , ⟨[192, 0, 2, 0], [255, 255, 255, 0]⟩             -- 192.0.2.0/24
        , ⟨[192, 88, 99, 0], [255, 255, 255, 0]⟩           -- 192.88.99.0/24
        , ⟨[192, 168, 0, 0], [255, 255, 0, 0]⟩             -- 192.168.0.0/16
        , ⟨[198, 18, 0, 0], [255, 254, 0, 0]⟩              -- 198.18.0.0/15
        , ⟨[198, 51, 100, 0], [255, 255, 255, 0]⟩          -- 198.51.100.0/24
        , ⟨[203, 0, 113, 0], [255, 255, 255, 0]⟩           -- 203.0.113.0/24
        , ⟨[224, 0, 0, 0], [240, 0, 0, 0]⟩                 -- 224.0.0.0/4
        , ⟨[240, 0, 0, 0], [240, 0, 0, 0]⟩                 -- 240.0.0.0/4
        , ⟨[255, 255, 255, 255], [255, 255, 255, 255]⟩     -- 255.255.255.255/32
        -- ::/128
        , ⟨[0, 0, 0, 0, 0, 0, 0, 0, 0, 0, 0, 0, 0, 0, 0, 0],
           [255, 255, 255, 255, 255, 255, 255, 255,
            255, 255, 255, 255, 255, 255, 255, 255]⟩
        -- ::1/128
        , ⟨[0, 0, 0, 0, 0, 0, 0, 0, 0, 0, 0, 0, 0, 0, 0, 1],
           [255, 255, 255, 255, 255, 255, 255, 255,
            255, 255, 255, 255, 255, 255, 255, 255]⟩
        -- 100::/64
        , ⟨[1, 0, 0, 0, 0, 0, 0, 0, 0, 0, 0, 0, 0, 0, 0, 0],
           [255, 255, 255, 255, 255, 255, 255, 255, 0, 0, 0, 0, 0, 0, 0, 0]⟩
        -- 64:ff9b::/96
        , ⟨[0, 100, 255, 155, 0, 0, 0, 0, 0, 0, 0, 0, 0, 0, 0, 0],
           [255, 255, 255, 255, 255, 255, 255, 255,
            255, 255, 255, 255, 0, 0, 0, 0]⟩
        -- 2001::/32
        , ⟨[32, 1, 0, 0, 0, 0, 0, 0, 0, 0, 0, 0, 0, 0, 0, 0],
           [255, 255, 255, 255, 0, 0, 0, 0, 0, 0, 0, 0, 0, 0, 0, 0]⟩
        -- 2001:10::/28
        , ⟨[32, 1, 0, 16, 0, 0, 0, 0, 0, 0, 0, 0, 0, 0, 0, 0],
           [255, 255, 255, 240, 0, 0, 0, 0, 0, 0, 0, 0, 0, 0, 0, 0]⟩
        -- 2001:20::/28
        , ⟨[32, 1, 0, 32, 0, 0, 0, 0, 0, 0, 0, 0, 0, 0, 0, 0],
           [255, 255, 255, 240, 0, 0, 0, 0, 0, 0, 0, 0, 0, 0, 0, 0]⟩
        -- 2001:db8::/32
        , ⟨[32, 1, 13, 184, 0, 0, 0, 0, 0, 0, 0, 0, 0, 0, 0, 0],
           [255, 255, 255, 255, 0, 0, 0, 0, 0, 0, 0, 0, 0, 0, 0, 0]⟩
        -- 2002::/16
        , ⟨[32, 2, 0, 0, 0, 0, 0, 0, 0, 0, 0, 0, 0, 0, 0, 0],
           [255, 255, 0, 0, 0, 0, 0, 0, 0, 0, 0, 0, 0, 0, 0, 0]⟩
        -- fc00::/7
        , ⟨[252, 0, 0, 0, 0, 0, 0, 0, 0, 0, 0, 0, 0, 0, 0, 0],
           [254, 0, 0, 0, 0, 0, 0, 0, 0, 0, 0, 0, 0, 0, 0, 0]⟩
        -- fe80::/10
        , ⟨[254, 128, 0, 0, 0, 0, 0, 0, 0, 0, 0, 0, 0, 0, 0, 0],
           [255, 192, 0, 0, 0, 0, 0, 0, 0, 0, 0, 0, 0, 0, 0, 0]⟩
        -- ff00::/8
        , ⟨[255, 0, 0, 0, 0, 0, 0, 0, 0, 0, 0, 0, 0, 0, 0, 0],
           [255, 0, 0, 0, 0, 0, 0, 0, 0, 0, 0, 0, 0, 0, 0, 0]⟩ ] ∧
    DefaultDialer.BlockPrivate = true ∧
    DefaultDialer.BlockLinkLocal = true ∧
    DefaultDialer.BlockMulticast = true ∧
    DefaultDialer.BlockUnspecified = true := by
  refine ⟨rfl, rfl, ?_, rfl, rfl, rfl, rfl⟩
  decide

/-- C10: `Dial`'s port gate compares `int16(portnum)` for exact equality
against the `AllowedPorts` entries.  The truncation is injective on
[0, 65535], so no disallowed port aliases an allowed one, and a port above
32767 passes the gate exactly when its value minus 65536 appears as a
(negative) entry of `AllowedPorts`. -/
theorem port_gate_int16_truncation :
    (∀ p q : Int, 0 ≤ p → p ≤ 65535 → 0 ≤ q → q ≤ 65535 →
      toInt16 p = toInt16 q → p = q) ∧
    (∀ (d : Dialer) (p : Int), 32767 < p → p ≤ 65535 →
      (d.allowedPort (toInt16 p) = true ↔ (p - 65536) ∈ d.AllowedPorts)) := by
  constructor
  · intro p q hp hp' hq hq' h
    simp only [toInt16] at h
    omega
  · intro d p hp hp'
    have h : toInt16 p = p - 65536 := by
      simp only [toInt16]
      omega
    rw [h, Dialer.allowedPort, intListHas_iff]

theorem port_gate_int16_truncation_witness :
    negPortDialer.allowedPort (toInt16 40000) = true :=
  (port_gate_int16_truncation.2 negPortDialer 40000 (by decide) (by decide)).mpr
    (by decide)

/-- C5: when a timeout is configured, the effective deadline is the earlier
of `now + Timeout` and any configured absolute deadline, and the per-attempt
timeout equals the remaining time divided evenly (Go truncated division)
across the candidates, floored at two seconds, but never exceeding the
originally configured timeout. -/
theorem serial_time_budget (d : Dialer) (now : Int) (n : Nat)
    (hT : 0 < d.Timeout) (_hn : 0 < n) (_hnow : 0 < now) (_hD : 0 ≤ d.Deadline) :
    effDeadline d now =
      (if d.Deadline = 0 then now + d.Timeout
       else min (now + d.Timeout) d.Deadline) ∧
    perAttempt d now n =
      min (max (Int.tdiv (effDeadline d now - now) (n : Int)) twoSeconds)
        d.Timeout := by
  have hT0 : d.Timeout ≠ 0 := by omega
  constructor
  · simp only [effDeadline, if_pos hT]
    rcases eq_or_ne d.Deadline 0 with h | h
    · simp [h]
    · simp only [h, false_or, if_neg h]
      rw [min_def]
      split_ifs <;> first | exact (False.elim (by assumption)) | omega
  · simp only [perAttempt, hT0, false_or]
    generalize Int.tdiv (effDeadline d now - now) (n : Int) = q
    rw [min_def, max_def]
    split_ifs <;> first | exact (False.elim (by assumption)) | omega

theorem serial_time_budget_witness :
    perAttempt budgetDialer 5 3 = 3333333333 := by
  rw [(serial_time_budget budgetDialer 5 3 (by decide) (by decide) (by decide)
    (by decide)).2]
  decide

/-- C6: for every non-empty candidate list (under a live time budget), the
serial connector tries addresses strictly in list order, returns the first
successful connection without trying later candidates, and when every
candidate fails it returns the error recorded for the first candidate. -/
theorem serial_order_first_error (d : Dialer) (env : Env) (now : Int)
    (network addr port : String) (ips : List IP)
    (hne : ips ≠ [])
    (hdl : effDeadline d now = 0 ∨ now < effDeadline d now) :
    (∀ pre ip rest, ips = pre ++ ip :: rest →
        (∀ p ∈ pre, ∃ e, env.connect network p port = .error e) →
        env.connect network ip port = .ok () →
        d.dialSerial env now network addr ips port =
          (.conn, (pre ++ [ip]).map (fun p => Event.attempt network p port))) ∧
    (∀ e0, (∀ p ∈ ips, ∃ e, env.connect network p port = .error e) →
        env.connect network ips.headI port = .error e0 →
        d.dialSerial env now network addr ips port =
          (.fail (.connectErr e0),
            ips.map (fun p => Event.attempt network p port))) := by
  have hd' : ¬(effDeadline d now ≠ 0 ∧ effDeadline d now - now ≤ 0) := by
    rcases hdl with h | h
    · exact fun hc => hc.1 h
    · exact fun hc => absurd hc.2 (by omega)
  have hlen : ¬(ips.length = 0) := fun h => hne (List.length_eq_zero.mp h)
  have branch : ∀ timeout : Int,
      (∀ pre ip rest, ips = pre ++ ip :: rest →
          (∀ p ∈ pre, ∃ e, env.connect network p port = .error e) →
          env.connect network ip port = .ok () →
          finishSerial addr
              (serialLoop env timeout (effDeadline d now) now network port ips none) =
            (.conn, (pre ++ [ip]).map (fun p => Event.attempt network p port))) ∧
      (∀ e0, (∀ p ∈ ips, ∃ e, env.connect network p port = .error e) →
          env.connect network ips.headI port = .error e0 →
          finishSerial addr
              (serialLoop env timeout (effDeadline d now) now network port ips none) =
            (.fail (.connectErr e0),
              ips.map (fun p => Event.attempt network p port))) := by
    intro timeout
    constructor
    · rintro pre ip rest rfl hfail hok
      rw [serialLoop_firstSuccess env timeout (effDeadline d now) now network port hd'
        pre ip rest none hfail hok]
      rfl
    · intro e0 hfail he0
      obtain ⟨ip, rest, rfl⟩ : ∃ ip rest, ips = ip :: rest := by
        cases ips with
        | nil => exact absurd rfl hne
        | cons a l => exact ⟨a, l, rfl⟩
      simp only [List.headI] at he0
      have hrest := serialLoop_allFail_someErr env timeout (effDeadline d now) now
        network port hd' rest e0 (fun p hp => hfail p (List.mem_cons_of_mem ip hp))
      have hite : (if (none : Option String) = none then some e0 else none) = some e0 :=
        rfl
      simp only [serialLoop, netDial, if_neg hd', he0, hite, if_true, hrest,
        List.singleton_append, List.map_cons]
      rfl
  simp only [Dialer.dialSerial]
  by_cases h0 : effDeadline d now = 0
  · simp only [h0, ne_eq, not_true_eq_false, if_false, not_not]
    have := branch d.Timeout
    rw [h0] at this
    exact this
  · simp only [ne_eq, h0, not_false_eq_true, if_true, hlen, if_false]
    exact branch (perAttempt d now ips.length)

/-- A dialer with no timeout and no deadline. -/

theorem serial_order_first_error_witness :
    plainDialer.dialSerial flakyEnv 0 "tcp" "h:80" [[1, 1, 1, 1], [2, 2, 2, 2]] "80" =
      (.conn, [Event.attempt "tcp" [1, 1, 1, 1] "80",
               Event.attempt "tcp" [2, 2, 2, 2] "80"]) :=
  (serial_order_first_error plainDialer flakyEnv 0 "tcp" "h:80" "80"
      [[1, 1, 1, 1], [2, 2, 2, 2]] (by decide) (Or.inl (by decide))).1
    [[1, 1, 1, 1]] [2, 2, 2, 2] [] rfl
    (by
      intro p hp
      simp only [List.mem_singleton] at hp
      subst hp
      exact ⟨"connection refused", rfl⟩)
    rfl

/-- C7 (evidence of the divergence): with a configured timeout and an empty
candidate list, `dialSerial` reaches `totalTime / time.Duration(len(ips))`,
an integer division by zero, i.e. a Go runtime panic — not the
distinguished "no addresses found" error; that error is produced for an
empty candidate list only when no effective deadline exists. -/
theorem dialSerial_empty_timeout_panics :
    oneSecondDialer.dialSerial refusingEnv 1 "tcp" "example.com:80" [] "80" =
      (.panicked, []) ∧
    plainDialer.dialSerial refusingEnv 1 "tcp" "example.com:80" [] "80" =
      (.fail (.noAddresses "example.com:80"), []) := by
  constructor <;> decide

/-- C8: when the configured absolute deadline lies in the past at the time
the serial connector runs, the call fails at once with the collaborator's
timeout error and no socket connection attempt is recorded for any
candidate. -/
theorem past_deadline_fails_without_attempt (d : Dialer) (env : Env) (now : Int)
    (network addr port : String) (ips : List IP)
    (hD : d.Deadline ≠ 0) (hpast : d.Deadline < now) (hne : ips ≠ []) :
    d.dialSerial env now network addr ips port =
      (.fail (.connectErr "i/o timeout"), []) := by
  have heff : effDeadline d now = d.Deadline := by
    simp only [effDeadline]
    by_cases h1 : 0 < d.Timeout
    · rw [if_pos h1, if_neg (by rintro (h | h) <;> omega)]
    · rw [if_neg h1]
  have hdl : effDeadline d now ≠ 0 ∧ effDeadline d now - now ≤ 0 := by
    rw [heff]
    exact ⟨hD, by omega⟩
  obtain ⟨ip, rest, rfl⟩ : ∃ ip rest, ips = ip :: rest := by
    cases ips with
    | nil => exact absurd rfl hne
    | cons a l => exact ⟨a, l, rfl⟩
  have hrest := serialLoop_pastDeadline env (perAttempt d now (rest.length + 1))
    (effDeadline d now) now network port hdl rest "i/o timeout"
  have hite : (if (none : Option String) = none then some "i/o timeout" else none) =
      some "i/o timeout" := rfl
  simp only [Dialer.dialSerial, if_pos hdl.1, List.length_cons, Nat.succ_ne_zero,
    if_false, serialLoop, netDial, if_pos hdl, hite, if_true, hrest, List.nil_append]
  rfl

theorem past_deadline_fails_without_attempt_witness :
    pastDeadlineDialer.dialSerial refusingEnv 10 "tcp" "h:80" [[1, 1, 1, 1]] "80" =
      (.fail (.connectErr "i/o timeout"), []) :=
  past_deadline_fails_without_attempt pastDeadlineDialer refusingEnv 10 "tcp" "h:80"
    "80" [[1, 1, 1, 1]] (by decide) (by decide) (by decide)

theorem firstDisallowed_spec (d : Dialer) :
    ∀ ips : List IP, (∃ ip ∈ ips, d.allowedIP ip = false) →
      ∃ b, firstDisallowed d ips = some b ∧ b ∈ ips ∧ d.allowedIP b = false := by
  intro ips
  induction ips with
  | nil =>
    rintro ⟨ip, h, _⟩
    cases h
  | cons a l ih =>
    rintro ⟨ip, hmem, hip⟩
    by_cases ha : d.allowedIP a = true
    · have hl : ∃ p ∈ l, d.allowedIP p = false := by
        rcases List.mem_cons.mp hmem with rfl | h
        · rw [ha] at hip
          cases hip
        · exact ⟨ip, h, hip⟩
      obtain ⟨b, hfd, hbmem, hb⟩ := ih hl
      exact ⟨b, by simp [firstDisallowed, ha, hfd], List.mem_cons_of_mem a hbmem, hb⟩
    · exact ⟨a, by simp [firstDisallowed, ha], List.mem_cons_self a l, by simpa using ha⟩

/-- C1: when the transport and port checks pass and the host resolves to a
list containing at least one disallowed address, `Dial` returns a
blocked-range error naming a disallowed resolved address and records no
socket connection attempt — even when other resolved addresses for the same
host are allowed. -/
theorem blocked_ip_rejects_dial (d : Dialer) (env : Env) (now : Int)
    (network addr host port : String) (ips : List IP) (portnum : Int)
    (hnet : d.allowedNet network = true)
    (hsplit : env.split addr = .ok (host, port))
    (hport : parsePort env network port = .ok portnum)
    (hallow : d.allowedPort (toInt16 portnum) = true)
    (hlook : env.lookupIP host = .ok ips)
    (hblocked : ∃ ip ∈ ips, d.allowedIP ip = false) :
    ∃ b ∈ ips, d.allowedIP b = false ∧
      d.Dial env now network addr =
        (.fail (.blockedRange addr b), [.lookupIP host]) := by
  obtain ⟨b, hfd, hbmem, hb⟩ := firstDisallowed_spec d ips hblocked
  refine ⟨b, hbmem, hb, ?_⟩
  simp [Dialer.Dial, hnet, hsplit, hport, hallow, hlook, hfd]

theorem blocked_ip_rejects_dial_witness :
    ∃ b ∈ [[93, 184, 216, 34], [127, 0, 0, 1]],
      DefaultDialer.allowedIP b = false ∧
      DefaultDialer.Dial mixedEnv 0 "tcp" "h:80" =
        (.fail (.blockedRange "h:80" b), [.lookupIP "h"]) :=
  blocked_ip_rejects_dial DefaultDialer mixedEnv 0 "tcp" "h:80" "h" "80"
    [[93, 184, 216, 34], [127, 0, 0, 1]] 80 (by decide) rfl rfl (by decide) rfl
    ⟨[127, 0, 0, 1], by decide, by decide⟩

/-- C2: `Dial` performs its checks in the strict order transport,
host:port split, port parse, port allow-list, DNS resolution, per-IP
validation, connect, and any failure short-circuits: a transport failure
yields the same rejection for every environment with an empty event trace,
a disallowed port is rejected with no DNS-lookup event, and no validation
failure produces any socket-attempt event. -/
theorem dial_checks_in_order (d : Dialer) (network addr : String) (now : Int) :
    (∀ env : Env, d.allowedNet network = false →
      d.Dial env now network addr = (.fail (.invalidNet network addr), [])) ∧
    (∀ (env : Env) (e : String), d.allowedNet network = true →
      env.split addr = .error e →
      d.Dial env now network addr = (.fail (.splitHostPortErr e), [])) ∧
    (∀ (env : Env) (host port : String) (e : GoError), d.allowedNet network = true →
      env.split addr = .ok (host, port) → parsePort env network port = .error e →
      d.Dial env now network addr = (.fail e, [])) ∧
    (∀ (env : Env) (host port : String) (portnum : Int), d.allowedNet network = true →
      env.split addr = .ok (host, port) → parsePort env network port = .ok portnum →
      d.allowedPort (toInt16 portnum) = false →
      d.Dial env now network addr = (.fail (.blockedPort addr), [])) ∧
    (∀ (env : Env) (host port : String) (portnum : Int) (e : String),
      d.allowedNet network = true →
      env.split addr = .ok (host, port) → parsePort env network port = .ok portnum →
      d.allowedPort (toInt16 portnum) = true → env.lookupIP host = .error e →
      d.Dial env now network addr = (.fail (.lookupIPErr e), [.lookupIP host])) ∧
    (∀ (env : Env) (host port : String) (portnum : Int) (ips : List IP) (b : IP),
      d.allowedNet network = true →
      env.split addr = .ok (host, port) → parsePort env network port = .ok portnum →
      d.allowedPort (toInt16 portnum) = true → env.lookupIP host = .ok ips →
      firstDisallowed d ips = some b →
      d.Dial env now network addr =
        (.fail (.blockedRange addr b), [.lookupIP host])) ∧
    (∀ (env : Env) (host port : String) (portnum : Int) (ips : List IP),
      d.allowedNet network = true →
      env.split addr = .ok (host, port) → parsePort env network port = .ok portnum →
      d.allowedPort (toInt16 portnum) = true → env.lookupIP host = .ok ips →
      firstDisallowed d ips = none →
      d.Dial env now network addr =
        ((d.dialSerial env now network addr ips (itoa portnum)).1,
          Event.lookupIP host :: (d.dialSerial env now network addr ips (itoa portnum)).2)) := by
  refine ⟨?_, ?_, ?_, ?_, ?_, ?_, ?_⟩
  · intro env h1
    simp [Dialer.Dial, h1]
  · intro env e h1 h2
    simp [Dialer.Dial, h1, h2]
  · intro env host port e h1 h2 h3
    simp [Dialer.Dial, h1, h2, h3]
  · intro env host port portnum h1 h2 h3 h4
    simp [Dialer.Dial, h1, h2, h3, h4]
  · intro env host port portnum e h1 h2 h3 h4 h5
    simp [Dialer.Dial, h1, h2, h3, h4, h5]
  · intro env host port portnum ips b h1 h2 h3 h4 h5 h6
    simp [Dialer.Dial, h1, h2, h3, h4, h5, h6]
  · intro env host port portnum ips h1 h2 h3 h4 h5 h6
    simp [Dialer.Dial, h1, h2, h3, h4, h5, h6]

/-- An environment whose split oracle yields host "h" and port text "25". -/

theorem dial_checks_in_order_witness :
    DefaultDialer.Dial resolver25Env 0 "tcp" "h:25" =
      (.fail (.blockedPort "h:25"), []) :=
  (dial_checks_in_order DefaultDialer "tcp" "h:25" 0).2.2.2.1 resolver25Env
    "h" "25" 25 (by decide) rfl rfl (by decide)

theorem string_mk_data (l : List Char) : (String.mk l).data = l := rfl

theorem digitVal_digitChar : ∀ d : Nat, d < 16 → digitVal (Nat.digitChar d) = some d := by
  decide

theorem digitChar_not_special : ∀ d : Nat, d < 16 →
    Nat.digitChar d ≠ 'x' ∧ Nat.digitChar d ≠ 'X' ∧ Nat.digitChar d ≠ '.' ∧
      Nat.digitChar d ≠ ':' := by
  decide

theorem digitChar_pos_ne_zero : ∀ d : Nat, d < 10 → 0 < d → Nat.digitChar d ≠ '0' := by
  decide

theorem digitsAux_digits (b2 : Nat) :
    ∀ n, ∀ c ∈ digitsAux b2 n, ∃ d, d < b2 + 2 ∧ c = Nat.digitChar d := by
  intro n
  induction n using Nat.strong_induction_on with
  | _ n ih =>
    intro c hc
    rw [digitsAux] at hc
    split_ifs at hc with h
    · exact ⟨n, h, (List.mem_singleton.mp hc).symm ▸ rfl⟩
    · rcases List.mem_append.mp hc with h1 | h2
      · exact ih (n / (b2 + 2)) (Nat.div_lt_self (by omega) (by omega)) c h1
      · exact ⟨n % (b2 + 2), Nat.mod_lt n (by omega),
          (List.mem_singleton.mp h2)⟩

theorem digitsAux_ne_nil (b2 n : Nat) : digitsAux b2 n ≠ [] := by
  rw [digitsAux]
  split_ifs <;> simp

theorem parseDigitsAux_append (b : Nat) :
    ∀ (l1 l2 : List Char) (acc : Nat),
      parseDigitsAux b (l1 ++ l2) acc =
        (parseDigitsAux b l1 acc).bind (fun m => parseDigitsAux b l2 m) := by
  intro l1
  induction l1 with
  | nil => intro l2 acc; rfl
  | cons c cs ih =>
    intro l2 acc
    simp only [List.cons_append, parseDigitsAux]
    cases hdv : digitVal c with
    | none => rfl
    | some v =>
      by_cases hv : v < b
      · simp only [if_pos hv, List.append_eq]
        exact ih l2 (acc * b + v)
      · simp only [if_neg hv]
        rfl

theorem parseDigitsAux_digitsAux (b2 : Nat) (hb : b2 + 2 ≤ 16) :
    ∀ n acc, parseDigitsAux (b2 + 2) (digitsAux b2 n) acc =
      some (acc * (b2 + 2) ^ (digitsAux b2 n).length + n) := by
  intro n
  induction n using Nat.strong_induction_on with
  | _ n ih =>
    intro acc
    rw [digitsAux]
    split_ifs with h
    · have hdv := digitVal_digitChar n (lt_of_lt_of_le h hb)
      simp [parseDigitsAux, hdv, h]
    · have hdiv : n / (b2 + 2) < n := Nat.div_lt_self (by omega) (by omega)
      have hmod : n % (b2 + 2) < b2 + 2 := Nat.mod_lt n (by omega)
      have hdv := digitVal_digitChar (n % (b2 + 2)) (lt_of_lt_of_le hmod hb)
      rw [parseDigitsAux_append, ih (n / (b2 + 2)) hdiv acc]
      simp only [Option.bind_some, parseDigitsAux, hdv, if_pos hmod,
        List.length_append, List.length_singleton, pow_succ]
      refine congrArg some ?_
      have hdm := Nat.div_add_mod n (b2 + 2)
      set B := b2 + 2
      set L := (digitsAux b2 (n / B)).length
      calc (acc * B ^ L + n / B) * B + n % B
          = acc * (B ^ L * B) + (B * (n / B) + n % B) := by ring
        _ = acc * (B ^ L * B) + n := by rw [hdm]

theorem parseDigits_digitsAux (b2 : Nat) (hb : b2 + 2 ≤ 16) (n : Nat) :
    parseDigits (b2 + 2) (digitsAux b2 n) = some n := by
  rw [parseDigits, if_neg (digitsAux_ne_nil b2 n), parseDigitsAux_digitsAux b2 hb]
  simp

theorem digitsAux_head_pos (b2 : Nat) :
    ∀ n, 0 < n → ∃ d t, digitsAux b2 n = Nat.digitChar d :: t ∧ 0 < d ∧ d < b2 + 2 := by
  intro n
  induction n using Nat.strong_induction_on with
  | _ n ih =>
    intro hn
    rw [digitsAux]
    split_ifs with h
    · exact ⟨n, [], rfl, hn, h⟩
    · obtain ⟨d, t, hdt, hd0, hdB⟩ :=
        ih (n / (b2 + 2)) (Nat.div_lt_self (by omega) (by omega))
          (Nat.div_pos (by omega) (by omega))
      exact ⟨d, t ++ [Nat.digitChar (n % (b2 + 2))],
        by rw [hdt, List.cons_append], hd0, hdB⟩

theorem not_dot_digitsBase (b : Nat) (h2 : 2 ≤ b) (h16 : b ≤ 16) (n : Nat) :
    '.' ∉ digitsBase b n := by
  intro hmem
  obtain ⟨d, hd, heq⟩ := digitsAux_digits (b - 2) n '.' hmem
  exact (digitChar_not_special d (by omega)).2.2.1 heq.symm

theorem not_colon_digitsBase (b : Nat) (h2 : 2 ≤ b) (h16 : b ≤ 16) (n : Nat) :
    ':' ∉ digitsBase b n := by
  intro hmem
  obtain ⟨d, hd, heq⟩ := digitsAux_digits (b - 2) n ':' hmem
  exact (digitChar_not_special d (by omega)).2.2.2 heq.symm

theorem parseSegment_dec (n : Nat) : parseSegment (digitsBase 10 n) = some n := by
  rcases Nat.eq_zero_or_pos n with rfl | hn
  · show parseSegment (digitsAux 8 0) = some 0
    rw [digitsAux]
    decide
  · obtain ⟨d, t, hdt, hd0, hdB⟩ := digitsAux_head_pos 8 n hn
    have hne : Nat.digitChar d ≠ '0' := digitChar_pos_ne_zero d hdB hd0
    show parseSegment (digitsAux 8 n) = some n
    rw [hdt]
    simp only [parseSegment, if_neg hne]
    rw [← hdt]
    exact parseDigits_digitsAux 8 (by omega) n

theorem parseSegment_hex (n : Nat) :
    parseSegment ('0' :: 'x' :: digitsBase 16 n) = some n := by
  have hstep : parseSegment ('0' :: 'x' :: digitsBase 16 n) =
      parseDigits 16 (digitsBase 16 n) := rfl
  rw [hstep]
  exact parseDigits_digitsAux 14 (by omega) n

theorem parseSegment_oct (a : Nat) : parseSegment ('0' :: digitsBase 8 a) = some a := by
  show parseSegment ('0' :: digitsAux 6 a) = some a
  obtain ⟨c2, t2, hct⟩ := List.exists_cons_of_ne_nil (digitsAux_ne_nil 6 a)
  obtain ⟨d, hd, hcd⟩ := digitsAux_digits 6 a c2 (by rw [hct]; exact List.mem_cons_self _ _)
  have hfacts := digitChar_not_special d (by omega)
  have hnx : ¬(c2 = 'x' ∨ c2 = 'X') := by
    rw [hcd]
    rintro (h | h)
    · exact hfacts.1 h
    · exact hfacts.2.1 h
  rw [hct]
  show (if c2 = 'x' ∨ c2 = 'X' then parseDigits 16 t2
        else parseDigits 8 ('0' :: c2 :: t2)) = some a
  rw [if_neg hnx, ← hct, parseDigits, if_neg (by simp)]
  show parseDigitsAux 8 (digitsAux 6 a) 0 = some a
  rw [parseDigitsAux_digitsAux 6 (by omega)]
  simp

theorem splitDots_no_dot : ∀ l : List Char, '.' ∉ l → splitDots l = [l] := by
  intro l
  induction l with
  | nil => intro _; rfl
  | cons c cs ih =>
    intro h
    have hc : ¬(c = '.') := fun hcc => h (by rw [hcc]; exact List.mem_cons_self _ _)
    have hcs : '.' ∉ cs := fun hm => h (List.mem_cons_of_mem c hm)
    rw [splitDots, if_neg hc, ih hcs]

theorem splitDots_append (l1 l2 : List Char) (h : '.' ∉ l1) :
    splitDots (l1 ++ '.' :: l2) = l1 :: splitDots l2 := by
  induction l1 with
  | nil => simp [splitDots]
  | cons c cs ih =>
    have hc : ¬(c = '.') := fun hcc => h (by rw [hcc]; exact List.mem_cons_self _ _)
    have hcs : '.' ∉ cs := fun hm => h (List.mem_cons_of_mem c hm)
    rw [List.cons_append, splitDots, if_neg hc, ih hcs]

theorem splitOnLastColon_no_colon : ∀ l : List Char, ':' ∉ l →
    splitOnLastColon l = none := by
  intro l
  induction l with
  | nil => intro _; rfl
  | cons c cs ih =>
    intro h
    have hc : ¬(c = ':') := fun hcc => h (by rw [hcc]; exact List.mem_cons_self _ _)
    have hcs := ih (fun hm => h (List.mem_cons_of_mem c hm))
    simp only [splitOnLastColon, hcs, if_neg hc]

theorem splitOnLastColon_append (l p : List Char) (hl : ':' ∉ l) (hp : ':' ∉ p) :
    splitOnLastColon (l ++ ':' :: p) = some (l, p) := by
  induction l with
  | nil =>
    have hpn := splitOnLastColon_no_colon p hp
    simp [splitOnLastColon, hpn]
  | cons c cs ih =>
    have hcs : ':' ∉ cs := fun hm => hl (List.mem_cons_of_mem c hm)
    have hrec := ih hcs
    simp only [List.cons_append, splitOnLastColon, List.append_eq, hrec]

theorem inetAton_dotted (a b c d : Nat)
    (ha : a < 256) (hb : b < 256) (hc : c < 256) (hd : d < 256) :
    inetAton ⟨dottedEnc a b c d⟩ = some [a, b, c, d] := by
  have hnd : ∀ x : Nat, '.' ∉ digitsBase 10 x :=
    fun x => not_dot_digitsBase 10 (by omega) (by omega) x
  have hsp : splitDots (dottedEnc a b c d) =
      [digitsBase 10 a, digitsBase 10 b, digitsBase 10 c, digitsBase 10 d] := by
    simp only [dottedEnc]
    rw [splitDots_append (digitsBase 10 a) _ (hnd a),
      splitDots_append (digitsBase 10 b) _ (hnd b),
      splitDots_append (digitsBase 10 c) _ (hnd c),
      splitDots_no_dot _ (hnd d)]
  simp [inetAton, string_mk_data, hsp, parseParts, parseSegment_dec, ha, hb, hc, hd]

theorem inetAton_dec (a b c d : Nat)
    (ha : a < 256) (hb : b < 256) (hc : c < 256) (hd : d < 256) :
    inetAton ⟨decEnc (ipNum a b c d)⟩ = some [a, b, c, d] := by
  have hn : ipNum a b c d < 4294967296 := by
    simp only [ipNum]
    omega
  have hsp : splitDots (digitsBase 10 (ipNum a b c d)) =
      [digitsBase 10 (ipNum a b c d)] :=
    splitDots_no_dot _ (not_dot_digitsBase 10 (by omega) (by omega) _)
  simp only [decEnc, inetAton, string_mk_data, hsp, parseParts, parseSegment_dec,
    if_pos hn]
  simp only [ipNum, Option.some.injEq, List.cons.injEq, and_true]
  refine ⟨?_, ?_, ?_, ?_⟩ <;> omega

theorem not_dot_hexEnc (n : Nat) : '.' ∉ hexEnc n := by
  intro h
  rcases List.mem_cons.mp h with h | h
  · exact absurd h (by decide)
  rcases List.mem_cons.mp h with h | h
  · exact absurd h (by decide)
  · exact not_dot_digitsBase 16 (by omega) (by omega) n h

theorem inetAton_hex (a b c d : Nat)
    (ha : a < 256) (hb : b < 256) (hc : c < 256) (hd : d < 256) :
    inetAton ⟨hexEnc (ipNum a b c d)⟩ = some [a, b, c, d] := by
  have hn : ipNum a b c d < 4294967296 := by
    simp only [ipNum]
    omega
  have hsp : splitDots (hexEnc (ipNum a b c d)) = [hexEnc (ipNum a b c d)] :=
    splitDots_no_dot _ (not_dot_hexEnc _)
  have hseg : parseSegment (hexEnc (ipNum a b c d)) = some (ipNum a b c d) :=
    parseSegment_hex (ipNum a b c d)
  simp only [inetAton, string_mk_data, hsp, parseParts, hseg, if_pos hn]
  simp only [ipNum, Option.some.injEq, List.cons.injEq, and_true]
  refine ⟨?_, ?_, ?_, ?_⟩ <;> omega

theorem not_dot_octSeg (x : Nat) : '.' ∉ ('0' :: digitsBase 8 x) := by
  intro h
  rcases List.mem_cons.mp h with h | h
  · exact absurd h (by decide)
  · exact not_dot_digitsBase 8 (by omega) (by omega) x h

theorem inetAton_oct (a b c d : Nat)
    (ha : a < 256) (hb : b < 256) (hc : c < 256) (hd : d < 256) :
    inetAton ⟨octEnc a b c d⟩ = some [a, b, c, d] := by
  have hsp : splitDots (octEnc a b c d) =
      ['0' :: digitsBase 8 a, '0' :: digitsBase 8 b,
       '0' :: digitsBase 8 c, '0' :: digitsBase 8 d] := by
    simp only [octEnc]
    rw [splitDots_append ('0' :: digitsBase 8 a) _ (not_dot_octSeg a),
      splitDots_append ('0' :: digitsBase 8 b) _ (not_dot_octSeg b),
      splitDots_append ('0' :: digitsBase 8 c) _ (not_dot_octSeg c),
      splitDots_no_dot _ (not_dot_octSeg d)]
  simp [inetAton, string_mk_data, hsp, parseParts, parseSegment_oct, ha, hb, hc, hd]

theorem not_colon_octSeg (x : Nat) : ':' ∉ ('0' :: digitsBase 8 x) := by
  intro h
  rcases List.mem_cons.mp h with h | h
  · exact absurd h (by decide)
  · exact not_colon_digitsBase 8 (by omega) (by omega) x h

theorem not_colon_dottedEnc (a b c d : Nat) : ':' ∉ dottedEnc a b c d := by
  have h10 := fun x => not_colon_digitsBase 10 (by omega) (by omega) x
  intro h
  simp only [dottedEnc] at h
  rcases List.mem_append.mp h with h | h
  · exact h10 a h
  rcases List.mem_cons.mp h with h | h
  · exact absurd h (by decide)
  rcases List.mem_append.mp h with h | h
  · exact h10 b h
  rcases List.mem_cons.mp h with h | h
  · exact absurd h (by decide)
  rcases List.mem_append.mp h with h | h
  · exact h10 c h
  rcases List.mem_cons.mp h with h | h
  · exact absurd h (by decide)
  exact h10 d h

theorem not_colon_decEnc (n : Nat) : ':' ∉ decEnc n :=
  not_colon_digitsBase 10 (by omega) (by omega) n

theorem not_colon_hexEnc (n : Nat) : ':' ∉ hexEnc n := by
  intro h
  rcases List.mem_cons.mp h with h | h
  · exact absurd h (by decide)
  rcases List.mem_cons.mp h with h | h
  · exact absurd h (by decide)
  · exact not_colon_digitsBase 16 (by omega) (by omega) n h

theorem not_colon_octEnc (a b c d : Nat) : ':' ∉ octEnc a b c d := by
  intro h
  simp only [octEnc] at h
  rcases List.mem_append.mp h with h | h
  · exact not_colon_octSeg a h
  rcases List.mem_cons.mp h with h | h
  · exact absurd h (by decide)
  rcases List.mem_append.mp h with h | h
  · exact not_colon_octSeg b h
  rcases List.mem_cons.mp h with h | h
  · exact absurd h (by decide)
  rcases List.mem_append.mp h with h | h
  · exact not_colon_octSeg c h
  rcases List.mem_cons.mp h with h | h
  · exact absurd h (by decide)
  exact not_colon_octSeg d h

theorem dial_literal_blocked (enc : List Char) (bs : List Nat) (now : Int)
    (hcolon : ':' ∉ enc)
    (hres : inetAton ⟨enc⟩ = some bs)
    (hblock : DefaultDialer.allowedIP bs = false) :
    DefaultDialer.Dial literalEnv now "tcp" ⟨enc ++ [':', '8', '0']⟩ =
      (.fail (.blockedRange ⟨enc ++ [':', '8', '0']⟩ bs), [.lookupIP ⟨enc⟩]) := by
  have hsp : literalEnv.split ⟨enc ++ [':', '8', '0']⟩ =
      .ok (⟨enc⟩, ⟨['8', '0']⟩) := by
    simp only [literalEnv, string_mk_data]
    rw [splitOnLastColon_append enc ['8', '0'] hcolon (by decide)]
  have hlk : literalEnv.lookupIP ⟨enc⟩ = .ok [bs] := by
    simp only [literalEnv, hres]
  have hpp : parsePort literalEnv "tcp" ⟨['8', '0']⟩ = .ok 80 := rfl
  have hn : DefaultDialer.allowedNet "tcp" = true := by decide
  have hap : DefaultDialer.allowedPort (toInt16 80) = true := by decide
  have hfd : firstDisallowed DefaultDialer [bs] = some bs := by
    simp [firstDisallowed, hblock]
  simp [Dialer.Dial, hn, hsp, hpp, hap, hlk, hfd]

/-- C9: for every IPv4 address disallowed by the default policy, its
dotted-decimal, pure 32-bit decimal, hexadecimal, and zero-padded octal
segment literals all normalise (via the modelled resolver) to the same
4-byte internal representation, and dialing each of them on an allowed port
produces a blocked-range rejection naming that same address, with no socket
connection attempt. -/
theorem blocked_ip_encodings (a b c d : Nat) (now : Int)
    (ha : a < 256) (hb : b < 256) (hc : c < 256) (hd : d < 256)
    (hblock : DefaultDialer.allowedIP [a, b, c, d] = false) :
    (inetAton ⟨dottedEnc a b c d⟩ = some [a, b, c, d] ∧
     inetAton ⟨decEnc (ipNum a b c d)⟩ = some [a, b, c, d] ∧
     inetAton ⟨hexEnc (ipNum a b c d)⟩ = some [a, b, c, d] ∧
     inetAton ⟨octEnc a b c d⟩ = some [a, b, c, d]) ∧
    (∀ enc ∈ [dottedEnc a b c d, decEnc (ipNum a b c d),
              hexEnc (ipNum a b c d), octEnc a b c d],
      DefaultDialer.Dial literalEnv now "tcp" ⟨enc ++ [':', '8', '0']⟩ =
        (.fail (.blockedRange ⟨enc ++ [':', '8', '0']⟩ [a, b, c, d]),
          [.lookupIP ⟨enc⟩])) := by
  have h1 := inetAton_dotted a b c d ha hb hc hd
  have h2 := inetAton_dec a b c d ha hb hc hd
  have h3 := inetAton_hex a b c d ha hb hc hd
  have h4 := inetAton_oct a b c d ha hb hc hd
  refine ⟨⟨h1, h2, h3, h4⟩, ?_⟩
  intro enc hmem
  rcases List.mem_cons.mp hmem with rfl | hmem
  · exact dial_literal_blocked _ _ now (not_colon_dottedEnc a b c d) h1 hblock
  rcases List.mem_cons.mp hmem with rfl | hmem
  · exact dial_literal_blocked _ _ now (not_colon_decEnc _) h2 hblock
  rcases List.mem_cons.mp hmem with rfl | hmem
  · exact dial_literal_blocked _ _ now (not_colon_hexEnc _) h3 hblock
  rcases List.mem_cons.mp hmem with rfl | hmem
  · exact dial_literal_blocked _ _ now (not_colon_octEnc a b c d) h4 hblock
  · cases hmem

theorem blocked_ip_encodings_witness :
    (inetAton ⟨dottedEnc 127 0 0 1⟩ = some [127, 0, 0, 1] ∧
     inetAton ⟨decEnc (ipNum 127 0 0 1)⟩ = some [127, 0, 0, 1] ∧
     inetAton ⟨hexEnc (ipNum 127 0 0 1)⟩ = some [127, 0, 0, 1] ∧
     inetAton ⟨octEnc 127 0 0 1⟩ = some [127, 0, 0, 1]) ∧
    (∀ enc ∈ [dottedEnc 127 0 0 1, decEnc (ipNum 127 0 0 1),
              hexEnc (ipNum 127 0 0 1), octEnc 127 0 0 1],
      DefaultDialer.Dial literalEnv 0 "tcp" ⟨enc ++ [':', '8', '0']⟩ =
        (.fail (.blockedRange ⟨enc ++ [':', '8', '0']⟩ [127, 0, 0, 1]),
          [.lookupIP ⟨enc⟩])) :=
  blocked_ip_encodings 127 0 0 1 0 (by decide) (by decide) (by decide) (by decide)
    (by decide)

end Proxydial
